import Mathlib

/-!
# Earthquake Explorer — verification of the data-acquisition pipeline

Shallow embedding of the acquisition logic of `App.tsx`:
the USGS CSV decoder (`splitCsv`, `toNum`, `parseUSGSCsv`), the
localStorage-backed sliding-window rate limiter inside `fetchData`
(modelled as `tryAcquire` on a `LedgerState`), the one-second countdown
tick (`countdownTick`), the storage readers (`getRequestHistory`,
`getCooldownEndTime`), and the effect of one `fetchData` call on the
published record set (`fetchDataStep`).

JavaScript numbers are modelled as `ℚ`; on every path the claims touch,
the source manipulates only finite decimal values (all its numeric fields
pass through `Number.isFinite` or are literal constants), so no NaN or
infinity can occur where `ℚ` is used.  Where the source can see NaN
(`Date.parse`, `parseInt`) the model uses `Option ℚ` / `Option ℤ` with
`none` standing for NaN.  The ambient library functions `Date.parse` and
`Math.random` are kept as parameters (`dp`, `rand`) since their values do
not decide any claim.
-/

/-- Digits of a decimal numeral to a natural number. -/
def natOfDigits (cs : List Char) : ℕ :=
  cs.foldl (fun a c => a * 10 + (c.toNat - ('0').toNat)) 0

/-- Model of JavaScript `Number(s)` restricted to plain (optionally signed)
decimal numerals, returning `none` where `Number` yields a non-finite value.
Inputs outside this grammar (hex, exponents, `Infinity`, garbage text) are
all mapped to `none`; garbage text is exactly `NaN` in the source, and the
other exotic forms never occur in the feeds or claims under study. -/
def parseDecimal (s : String) : Option ℚ :=
  let core : List Char → Option ℚ := fun cs =>
    let ip := cs.takeWhile Char.isDigit
    let rest := cs.dropWhile Char.isDigit
    -- the numerals are built with `Rat.divInt` so that they evaluate
    -- inside the kernel; `divInt a 1` is the integer itself and
    -- `divInt (ip * 10 ^ k + frac) (10 ^ k)` is `ip.frac`
    match rest with
    | [] =>
        if ip.isEmpty then none
        else some (Rat.divInt (Int.ofNat (natOfDigits ip)) 1)
    | '.' :: frac =>
        if frac.all Char.isDigit ∧ ¬(ip.isEmpty ∧ frac.isEmpty) then
          some (Rat.divInt
            (Int.ofNat (natOfDigits ip * 10 ^ frac.length + natOfDigits frac))
            (Int.ofNat (10 ^ frac.length)))
        else none
    | _ => none
  match s.data with
  | '-' :: cs => (core cs).map Rat.neg
  | '+' :: cs => core cs
  | cs => core cs

/-- `toNum` from `App.tsx`: `undefined` (here `none`) on empty string or a
non-finite parse, the finite value otherwise. -/
def toNum (s : String) : Option ℚ :=
  if s = "" then none else parseDecimal s

/-- `toNum` applied to a possibly-`undefined` cell (`s == null` also yields
`undefined` in the source). -/
def toNumOpt (o : Option String) : Option ℚ :=
  o.bind toNum

/-- JavaScript `String.prototype.trim` on the character list (remove
whitespace from both ends); the inputs at hand are ASCII, where the JS
and Lean whitespace classes agree. -/
def trimChars (cs : List Char) : List Char :=
  ((cs.dropWhile Char.isWhitespace).reverse.dropWhile Char.isWhitespace).reverse

/-- `trim` as a string-to-string function. -/
def jsTrim (s : String) : String :=
  String.mk (trimChars s.data)

/-- Character loop of `splitCsv` from `App.tsx`: accumulates the current
field `cur`, toggling `inQ` on an unescaped quote, turning `""` inside a
quoted span into a literal `"`, and splitting on a comma only outside a
quoted span.  The final `cur` is always pushed.  The source's one-character
lookahead (`line[i+1]`) makes the last character a separate case, where the
lookahead is `undefined` and an escape can never trigger. -/
def csvLoop : List Char → List Char → Bool → List (List Char)
  | [], cur, _ => [cur]
  | [c], cur, inQ =>
      -- final character: `line[i+1]` is undefined, so `"` only toggles
      if c = '"' then [cur]
      else if c = ',' ∧ inQ = false then [cur, []]
      else [cur ++ [c]]
  | c1 :: c2 :: rest, cur, inQ =>
      if c1 = '"' then
        if inQ ∧ c2 = '"' then csvLoop rest (cur ++ ['"']) true
        else csvLoop (c2 :: rest) cur (!inQ)
      else if c1 = ',' ∧ inQ = false then cur :: csvLoop (c2 :: rest) [] false
      else csvLoop (c2 :: rest) (cur ++ [c1]) inQ

/-- `splitCsv` from `App.tsx`: run the quote-aware loop, then trim each
field (`out.map(s => s.trim())`). -/
def splitCsv (line : String) : List String :=
  (csvLoop line.data [] false).map (fun f => jsTrim (String.mk f))

/-- Split a character list on every occurrence of `sep`, keeping empty
pieces, as `String.prototype.split` does. -/
def splitOnChar (cs : List Char) (sep : Char) : List (List Char) :=
  match cs with
  | [] => [[]]
  | c :: rest =>
    if c = sep then [] :: splitOnChar rest sep
    else
      match splitOnChar rest sep with
      | [] => [[c]]
      | piece :: more => (c :: piece) :: more

/-- `csvText.split(/\rn?/)` modelled exactly: split on every newline, then
strip one trailing carriage return from each piece. -/
def splitLines (s : String) : List String :=
  (splitOnChar s.data '\n').map
    (fun l => if l.getLast? = some '\r' then String.mk l.dropLast else String.mk l)

/-- The non-blank lines of the input (`filter(l => l.trim().length > 0)`). -/
def nonBlankLines (s : String) : List String :=
  (splitLines s).filter (fun l => 0 < (jsTrim l).length)

/-- `headers.indexOf(name)`: `some i` for the first occurrence, `none`
standing for the source's `-1`. -/
def idxOf (headers : List String) (name : String) : Option ℕ :=
  headers.findIdx? (fun h => h = name)

/-- `cols[i]` for an index that may be `-1` (`none`) or out of range:
JavaScript yields `undefined`, modelled as `none`. -/
def getCol (cols : List String) (i : Option ℕ) : Option String :=
  i.bind (fun n => cols.get? n)

/-- JavaScript `x || d` for a possibly-`undefined` string `x`: the default
is taken when `x` is `undefined` or empty (both falsy). -/
def jsOrStr (o : Option String) (d : String) : String :=
  match o with
  | some s => if s = "" then d else s
  | none => d

/-- JavaScript `x || d` for a number that may be `NaN`/`undefined`
(`none`): the default is taken for `undefined`, `NaN` and `0`, the only
falsy numbers. -/
def jsOrNum (o : Option ℚ) (d : ℚ) : ℚ :=
  match o with
  | some v => if v = 0 then d else v
  | none => d

/-- `i >= 0 ? cols[i] || undefined : undefined` — the optional string
fields (`magType`, `type`). -/
def optStrCol (cols : List String) (i : Option ℕ) : Option String :=
  match i with
  | some n =>
      match cols.get? n with
      | some s => if s = "" then none else some s
      | none => none
  | none => none

/-- `Number.isNaN` applied to a required numeric field of a built record.
Every such field is `toNum(...) ?? 0`, and `toNum` yields only finite
numbers, so `NaN` cannot reach this check in the source; accordingly the
model's `ℚ` carries no NaN and the predicate is constantly false. -/
def numIsNaN (_ : ℚ) : Bool := false

/-- One decoded event record (`Earthquake` from `types.ts`). -/
structure Earthquake where
  id : String
  place : String
  magnitude : ℚ
  depth : ℚ
  lat : ℚ
  lng : ℚ
  time : ℚ
  magType : Option String
  etype : Option String
  nst : Option ℚ
  gap : Option ℚ
  dmin : Option ℚ
  rms : Option ℚ
  horizontalError : Option ℚ
  depthError : Option ℚ
  magError : Option ℚ
  magNst : Option ℚ
  deriving DecidableEq, Repr

/-- Builds one record from one data row, as the body of the `map` in
`parseUSGSCsv` does.  `dp` models `Date.parse` (`none` = NaN); `rand n` is
the fresh identifier `Math.random()` produces for row `n`.  The header
index lookups are recomputed here rather than hoisted out of the loop as
in the source; the values are identical since `headers` is fixed. -/
def mkRecord (dp : String → Option ℚ) (rand : ℕ → String)
    (headers : List String) (n : ℕ) (line : String) : Earthquake :=
  let cols := splitCsv line
  let timeVal := (getCol cols (idxOf headers "time")).getD ""
  -- Date.parse(timeVal) || toNum(timeVal) || 0, always a number afterwards
  let parsedTime := jsOrNum (dp timeVal) (jsOrNum (toNum timeVal) 0)
  { id := jsOrStr (getCol cols (idxOf headers "id")) (rand n)
    place := jsOrStr (getCol cols (idxOf headers "place")) "Unknown"
    magnitude := (toNumOpt (getCol cols (idxOf headers "mag"))).getD 0
    depth := (toNumOpt (getCol cols (idxOf headers "depth"))).getD 0
    lat := (toNumOpt (getCol cols (idxOf headers "latitude"))).getD 0
    lng := (toNumOpt (getCol cols (idxOf headers "longitude"))).getD 0
    time := parsedTime
    magType := optStrCol cols (idxOf headers "magType")
    etype := optStrCol cols (idxOf headers "type")
    nst := toNumOpt (getCol cols (idxOf headers "nst"))
    gap := toNumOpt (getCol cols (idxOf headers "gap"))
    dmin := toNumOpt (getCol cols (idxOf headers "dmin"))
    rms := toNumOpt (getCol cols (idxOf headers "rms"))
    horizontalError := toNumOpt (getCol cols (idxOf headers "horizontalError"))
    depthError := toNumOpt (getCol cols (idxOf headers "depthError"))
    magError := toNumOpt (getCol cols (idxOf headers "magError"))
    magNst := toNumOpt (getCol cols (idxOf headers "magNst")) }

/-- `parseUSGSCsv` from `App.tsx`: split into non-blank lines, bail out
below 2 lines (`lines.length < 2`), decode the header row (`lines[0]`),
map every remaining row (`lines.slice(1)`) to a record, then apply the
source's final filter `!Number.isNaN(e.lat) && !Number.isNaN(e.lng)`. -/
def parseUSGSCsv (dp : String → Option ℚ) (rand : ℕ → String)
    (csvText : String) : List Earthquake :=
  let lines := nonBlankLines csvText
  if lines.length < 2 then []
  else
    let headers := (splitCsv (lines.headD "")).map jsTrim
    ((lines.drop 1).mapIdx (fun n line => mkRecord dp rand headers n line)).filter
      (fun e => !(numIsNaN e.lat) && !(numIsNaN e.lng))

/-!
## The persistent rate-limit ledger

`fetchData` keeps two durable entries: `earthquakeRequestHistory` (a JSON
array of accepted-request timestamps) and `earthquakeCooldownEnd` (an
integer deadline).  `LedgerState` is the parsed content of those two
entries; every mutation in the source is written through immediately, so
one state value per instant suffices.
-/

/-- Parsed content of the two durable-storage entries.  `cooldownEnd =
none` covers both an absent entry and a `parseInt` result of NaN, the two
cases the source's truthiness checks treat alike. -/
structure LedgerState where
  history : List ℤ
  cooldownEnd : Option ℤ
  deriving DecidableEq, Repr

/-- Outcome of the rate-limit gate at the top of `fetchData`. -/
inductive AcquireResult where
  | Allowed
  | DeniedCooldown
  | DeniedAtCapacity
  deriving DecidableEq, Repr

/-- `cleanOldRequests` from `App.tsx`:
`history.filter(t => now - t < 60000)`. -/
def cleanOldRequests (history : List ℤ) (now : ℤ) : List ℤ :=
  history.filter (fun t => now - t < 60000)

/-- The source's guard `cooldownEnd && now < cooldownEnd`: a stored number
is truthy iff it is neither 0 nor NaN. -/
def cooldownActive (ce : Option ℤ) (now : ℤ) : Bool :=
  match ce with
  | some v => decide (v ≠ 0) && decide (now < v)
  | none => false

/-- The source's guard `cooldownEnd && now >= cooldownEnd`. -/
def cooldownExpired (ce : Option ℤ) (now : ℤ) : Bool :=
  match ce with
  | some v => decide (v ≠ 0) && decide (v ≤ now)
  | none => false

/-- The rate-limit gate of `fetchData` (lines before the network call),
as a function of the stored ledger and `now`:
deny (leaving storage untouched) while a cooldown is active; clear both
entries when a cooldown has expired; prune the window; deny at 10 pruned
entries, persisting the pruned sequence and arming `now + 120000`;
otherwise append `now`, arming the cooldown when the sequence thereby
reaches 10, and proceed. -/
def tryAcquire (s : LedgerState) (now : ℤ) : AcquireResult × LedgerState :=
  if cooldownActive s.cooldownEnd now then
    (AcquireResult.DeniedCooldown, s)
  else
    let s1 := if cooldownExpired s.cooldownEnd now then
                LedgerState.mk [] none
              else s
    let history := cleanOldRequests s1.history now
    if 10 ≤ history.length then
      (AcquireResult.DeniedAtCapacity, LedgerState.mk history (some (now + 120000)))
    else
      let h2 := history ++ [now]
      if 10 ≤ h2.length then
        (AcquireResult.Allowed, LedgerState.mk h2 (some (now + 120000)))
      else
        (AcquireResult.Allowed, LedgerState.mk h2 s1.cooldownEnd)

/-- A sequence of `tryAcquire` calls threaded through the ledger,
returning the outcomes in order and the final state. -/
def runAcquires (s : LedgerState) (ts : List ℤ) : List AcquireResult × LedgerState :=
  match ts with
  | [] => ([], s)
  | t :: rest =>
    let step := tryAcquire s t
    let tail := runAcquires step.2 rest
    (step.1 :: tail.1, tail.2)

/-- Storage effect of one tick of `countdownInterval`: nothing while a
cooldown is active; clear both entries when one has expired; otherwise
prune the window and persist it. -/
def countdownTick (s : LedgerState) (now : ℤ) : LedgerState :=
  if cooldownActive s.cooldownEnd now then s
  else if cooldownExpired s.cooldownEnd now then LedgerState.mk [] none
  else LedgerState.mk (cleanOldRequests s.history now) s.cooldownEnd

/-!
## Storage readers

`getRequestHistory` and `getCooldownEndTime` read raw storage; they must
tolerate absent or malformed payloads.  `JSON.parse` and `parseInt` are
ambient library routines: `parseInt` is modelled concretely below,
`JSON.parse` is a parameter `jparse` returning `none` where the source
would throw (the exception is caught and turned into `[]`).
-/

/-- A parsed JSON value, as `JSON.parse` can produce one. -/
inductive JsVal where
  | jnull
  | jbool (b : Bool)
  | jnum (q : ℚ)
  | jstr (s : String)
  | jarr (elems : List JsVal)
  | jobj

/-- `getRequestHistory` from `App.tsx`: absent or falsy (empty) payload →
`[]`; a `JSON.parse` failure is caught → `[]`; a parse result that is not
an array → `[]`; an array is returned as is. -/
def getRequestHistory (jparse : String → Option JsVal) (data : Option String) : List JsVal :=
  match data with
  | none => []
  | some s =>
    if s = "" then []
    else
      match jparse s with
      | none => []
      | some (JsVal.jarr xs) => xs
      | some _ => []

/-- JavaScript `parseInt(s, 10)`: skip leading whitespace, read an
optional sign and then the longest digit run; no digits → NaN (`none`). -/
def parseIntJS (s : String) : Option ℤ :=
  let lead : List Char → Option ℤ := fun cs =>
    let ds := cs.takeWhile Char.isDigit
    if ds.isEmpty then none else some (natOfDigits ds : ℤ)
  match s.data.dropWhile Char.isWhitespace with
  | '-' :: cs => (lead cs).map (fun n => -n)
  | '+' :: cs => lead cs
  | cs => lead cs

/-- `getCooldownEndTime` from `App.tsx`: `data ? parseInt(data, 10) : null`,
with `none` covering the absent entry, the falsy empty string, and a NaN
parse (a NaN deadline is falsy in every guard that consumes it). -/
def getCooldownEndTime (data : Option String) : Option ℤ :=
  match data with
  | none => none
  | some s => if s = "" then none else parseIntJS s

/-!
## One fetch attempt end to end

`fetchDataStep` is the effect of one `fetchData` call on the published
record set and the ledger: a denied attempt returns before the network
call, leaving the published set alone; an allowed attempt replaces it with
the decoded feed on success and with `[]` on failure (`catch` handler:
`setEarthquakeData([])`).
-/

/-- Result of the network round trip: the response text when the fetch
succeeded with a 2xx status, or a failure (transport error or non-success
status, both of which throw into the `catch`). -/
inductive FetchOutcome where
  | ok (text : String)
  | err
  deriving DecidableEq, Repr

/-- One `fetchData` call: rate-limit gate, then — if allowed — the fetch
with outcome `outcome`.  Returns the new published record set and ledger. -/
def fetchDataStep (dp : String → Option ℚ) (rand : ℕ → String)
    (published : List Earthquake) (s : LedgerState) (now : ℤ)
    (outcome : FetchOutcome) : List Earthquake × LedgerState :=
  let gate := tryAcquire s now
  match gate.1 with
  | AcquireResult.Allowed =>
    match outcome with
    | FetchOutcome.ok text => (parseUSGSCsv dp rand text, gate.2)
    | FetchOutcome.err => ([], gate.2)
  | _ => (published, gate.2)

/-!
## Concrete fixtures and auxiliary predicates used by the theorems
-/

/-- A `Date.parse` instance that recognises nothing (every value is NaN);
used to close concrete scenarios whose claims do not involve the time
field. -/
def dpNone : String → Option ℚ := fun _ => none

/-- A fixed `Math.random` identifier stream for concrete scenarios. -/
def randA : ℕ → String := fun _ => "gen-a"

/-- A second, distinct identifier stream. -/
def randB : ℕ → String := fun _ => "gen-b"

/-- The two-line feed of the spec's decoding scenario. -/
def tokyoCsv : String :=
  "id,place,mag,depth,latitude,longitude,time\nabc,\"Tokyo, JP\",5.2,10.0,35.6,139.7,2024-01-01T00:00:00Z"

/-- A two-line feed whose single data row has a latitude field that does
not parse to a finite number. -/
def badLatCsv : String :=
  "id,place,mag,depth,latitude,longitude,time\na,X,1.0,2.0,abc,139.7,0"

/-- The empty ledger: no stored timestamps, no cooldown. -/
def emptyLedger : LedgerState := LedgerState.mk [] none

/-- Field-wise equality of two records on every field except the
identifier. -/
def sameExceptId (a b : Earthquake) : Prop :=
  a.place = b.place ∧ a.magnitude = b.magnitude ∧ a.depth = b.depth ∧
  a.lat = b.lat ∧ a.lng = b.lng ∧ a.time = b.time ∧
  a.magType = b.magType ∧ a.etype = b.etype ∧ a.nst = b.nst ∧
  a.gap = b.gap ∧ a.dmin = b.dmin ∧ a.rms = b.rms ∧
  a.horizontalError = b.horizontalError ∧ a.depthError = b.depthError ∧
  a.magError = b.magError ∧ a.magNst = b.magNst

/-- The identifier cell of the `i`-th data row of the input, as the
decoder reads it (`cols[idI]`): `none` when the row or the `id` column is
absent. -/
def idCell (text : String) (i : ℕ) : Option String :=
  (((nonBlankLines text).drop 1).get? i).bind
    (fun line => getCol (splitCsv line)
      (idxOf ((splitCsv ((nonBlankLines text).headD "")).map jsTrim) "id"))

/-!
## Theorems
-/

/-- Claim C1 (counterexample).  The first attempt succeeds and publishes a
non-empty record set; the next attempt passes the rate limiter, fails, and
the published set becomes empty — not "left unchanged" as claimed. -/
theorem claim1_counterexample :
    (fetchDataStep dpNone randA [] emptyLedger 0 (FetchOutcome.ok tokyoCsv)).1 ≠ [] ∧
    (fetchDataStep dpNone randA
        (fetchDataStep dpNone randA [] emptyLedger 0 (FetchOutcome.ok tokyoCsv)).1
        (fetchDataStep dpNone randA [] emptyLedger 0 (FetchOutcome.ok tokyoCsv)).2
        1 FetchOutcome.err).1 = [] := by
  decide

/-- Claim C1 (amended).  Every fetch attempt that passes the rate limiter and
fails replaces the published record set with the empty sequence — on the
first and on every subsequent attempt alike; an attempt denied by the rate
limiter leaves the published set unchanged. -/
theorem claim1_failure_always_clears (dp : String → Option ℚ) (rand : ℕ → String)
    (published : List Earthquake) (s : LedgerState) (now : ℤ) :
    (fetchDataStep dp rand published s now FetchOutcome.err).1 =
      if (tryAcquire s now).1 = AcquireResult.Allowed then [] else published := by
  unfold fetchDataStep
  cases h : (tryAcquire s now).1 <;> simp [h]

/-- Claim C2 (counterexample).  The single data row of `badLatCsv` has
latitude cell `"abc"`, which does not parse to a finite number
(`toNum "abc" = none`); the claim says such a row is excluded, yet the
decoder retains it (output length 1, latitude coerced to 0). -/
theorem claim2_counterexample :
    toNum "abc" = none ∧
    (parseUSGSCsv dpNone randA badLatCsv).length = 1 ∧
    (parseUSGSCsv dpNone randA badLatCsv).head?.map Earthquake.lat = some 0 := by
  refine ⟨rfl, ?_, ?_⟩ <;> decide

/-- Claim C2 (amended).  The decoder excludes nothing: its final filter
checks `Number.isNaN` on latitude/longitude values that were built with
`toNum(...) ?? 0` and hence are always finite, so every data row is
retained (output length = number of non-blank lines minus the header). -/
theorem claim2_every_row_retained (dp : String → Option ℚ) (rand : ℕ → String)
    (text : String) :
    (parseUSGSCsv dp rand text).length = (nonBlankLines text).length - 1 := by
  unfold parseUSGSCsv
  by_cases h : (nonBlankLines text).length < 2
  · rw [if_pos h]
    simp only [List.length_nil]
    omega
  · rw [if_neg h]
    rw [List.filter_eq_self.mpr (by intro e _; simp [numIsNaN])]
    simp [List.length_mapIdx]

/-- Claim C3 (counterexample).  After `tryAcquire(t)` for `t = 0..9` (all
Allowed), the call `tryAcquire(10)` returns `DeniedCooldown`, not
`DeniedAtCapacity` as claimed: the 10th allowed call (at `t = 9`) already
armed the cooldown, so the 11th call is stopped by the cooldown check. -/
theorem claim3_counterexample :
    (runAcquires emptyLedger [0, 1, 2, 3, 4, 5, 6, 7, 8, 9]).1 =
      List.replicate 10 AcquireResult.Allowed ∧
    (tryAcquire (runAcquires emptyLedger [0, 1, 2, 3, 4, 5, 6, 7, 8, 9]).2 10).1 =
      AcquireResult.DeniedCooldown ∧
    AcquireResult.DeniedCooldown ≠ AcquireResult.DeniedAtCapacity := by
  decide

/-- Claim C3 (amended).  `tryAcquire(t)` for `t = 0..9` are all Allowed, the
10th of them (at `t = 9`) arming a 120000 ms cooldown ending at 120009;
`tryAcquire(10)`, and any repeat before that deadline, returns
`DeniedCooldown` with the ledger untouched; `tryAcquire(130001)` returns
Allowed with the stored sequence reset to length 1. -/
theorem claim3_amended_scenario :
    runAcquires emptyLedger [0, 1, 2, 3, 4, 5, 6, 7, 8, 9] =
      (List.replicate 10 AcquireResult.Allowed,
       LedgerState.mk [0, 1, 2, 3, 4, 5, 6, 7, 8, 9] (some 120009)) ∧
    tryAcquire (LedgerState.mk [0, 1, 2, 3, 4, 5, 6, 7, 8, 9] (some 120009)) 10 =
      (AcquireResult.DeniedCooldown,
       LedgerState.mk [0, 1, 2, 3, 4, 5, 6, 7, 8, 9] (some 120009)) ∧
    tryAcquire (LedgerState.mk [0, 1, 2, 3, 4, 5, 6, 7, 8, 9] (some 120009)) 120008 =
      (AcquireResult.DeniedCooldown,
       LedgerState.mk [0, 1, 2, 3, 4, 5, 6, 7, 8, 9] (some 120009)) ∧
    tryAcquire (LedgerState.mk [0, 1, 2, 3, 4, 5, 6, 7, 8, 9] (some 120009)) 130001 =
      (AcquireResult.Allowed, LedgerState.mk [130001] none) := by
  decide

/-- Claim C4 (confirmed).  An allowed `tryAcquire` whose append brings the
stored sequence to exactly 10 entries arms the cooldown deadline at
`now + 120000` while itself returning Allowed, and any attempt made from
then until the deadline is denied by the cooldown. -/
theorem claim4_tenth_allowed_arms_cooldown (s : LedgerState) (now : ℤ)
    (h0 : 0 ≤ now)
    (ha : (tryAcquire s now).1 = AcquireResult.Allowed)
    (hl : (tryAcquire s now).2.history.length = 10) :
    (tryAcquire s now).2.cooldownEnd = some (now + 120000) ∧
    ∀ now2 : ℤ, now ≤ now2 → now2 < now + 120000 →
      (tryAcquire (tryAcquire s now).2 now2).1 = AcquireResult.DeniedCooldown := by
  unfold tryAcquire at ha hl ⊢
  by_cases hc : cooldownActive s.cooldownEnd now = true
  · simp [hc] at ha
  · simp only [hc, if_false, Bool.false_eq_true] at ha hl ⊢
    set s1 := if cooldownExpired s.cooldownEnd now then LedgerState.mk [] none else s with hs1
    by_cases hcap : 10 ≤ (cleanOldRequests s1.history now).length
    · simp [hcap] at ha
    · simp only [hcap, if_false] at ha hl ⊢
      by_cases hten : 10 ≤ (cleanOldRequests s1.history now ++ [now]).length
      · simp only [hten, if_true] at hl ⊢
        refine ⟨by simp, ?_⟩
        intro now2 hge hlt
        have hact : cooldownActive (some (now + 120000)) now2 = true := by
          unfold cooldownActive
          simp only [Bool.and_eq_true, decide_eq_true_eq]
          exact ⟨by omega, hlt⟩
        simp [hact]
      · simp only [hten, if_false] at hl
        simp only [List.length_append, List.length_singleton] at hten hl
        omega

/-- Claim C4 (witness). -/
theorem claim4_witness :
    (tryAcquire (LedgerState.mk [0, 0, 0, 0, 0, 0, 0, 0, 0] none) 1).2.cooldownEnd =
      some 120001 ∧
    (tryAcquire (tryAcquire (LedgerState.mk [0, 0, 0, 0, 0, 0, 0, 0, 0] none) 1).2 2).1 =
      AcquireResult.DeniedCooldown := by
  have h := claim4_tenth_allowed_arms_cooldown
    (LedgerState.mk [0, 0, 0, 0, 0, 0, 0, 0, 0] none) 1
    (by decide) (by decide) (by decide)
  exact ⟨h.1, h.2 2 (by decide) (by decide)⟩

/-- Claim C5 (confirmed).  A denied `tryAcquire` never adds a timestamp: a
cooldown denial returns the ledger exactly as stored, and a capacity
denial stores the pruned sequence only (a sub-sequence of what was
stored), never appending `now`. -/
theorem claim5_denied_never_appends (s : LedgerState) (now : ℤ) :
    ((tryAcquire s now).1 = AcquireResult.DeniedCooldown → (tryAcquire s now).2 = s) ∧
    ((tryAcquire s now).1 = AcquireResult.DeniedAtCapacity →
      (tryAcquire s now).2.history = cleanOldRequests s.history now ∧
      (tryAcquire s now).2.history.length ≤ s.history.length) := by
  unfold tryAcquire
  by_cases hc : cooldownActive s.cooldownEnd now = true
  · simp [hc]
  · simp only [hc, Bool.false_eq_true, if_false]
    by_cases he : cooldownExpired s.cooldownEnd now = true
    · simp only [he, if_true]
      by_cases hcap : 10 ≤ (cleanOldRequests (LedgerState.mk ([] : List ℤ) none).history now).length
      · exact absurd hcap (by simp [cleanOldRequests])
      · simp only [hcap, if_false]
        split <;> simp
    · simp only [he, Bool.false_eq_true, if_false]
      by_cases hcap : 10 ≤ (cleanOldRequests s.history now).length
      · simp only [hcap, if_true]
        constructor
        · intro hcon
          exact absurd hcon (by decide)
        · exact fun _ => ⟨trivial, List.length_filter_le _ _⟩
      · simp only [hcap, if_false]
        split <;> simp

/-- Claim C5 (witness): a cooldown denial leaves the ledger untouched, and a
capacity denial stores exactly the pruned sequence. -/
theorem claim5_witness :
    (tryAcquire (LedgerState.mk [] (some 100)) 5).2 = LedgerState.mk [] (some 100) ∧
    (tryAcquire (LedgerState.mk [0, 0, 0, 0, 0, 0, 0, 0, 0, 0] none) 5).2.history =
      cleanOldRequests [0, 0, 0, 0, 0, 0, 0, 0, 0, 0] 5 := by
  exact ⟨(claim5_denied_never_appends (LedgerState.mk [] (some 100)) 5).1 (by decide),
         ((claim5_denied_never_appends
            (LedgerState.mk [0, 0, 0, 0, 0, 0, 0, 0, 0, 0] none) 5).2 (by decide)).1⟩

/-- Claim C10 (confirmed).  From any storable state with at most 10
timestamps, both a fetch attempt and a countdown tick leave at most 10
timestamps: every branch only prunes, resets, or appends one entry after
checking the pruned length is below 10. -/
theorem claim10_capacity_invariant (s : LedgerState) (now : ℤ)
    (h : s.history.length ≤ 10) :
    (tryAcquire s now).2.history.length ≤ 10 ∧
    (countdownTick s now).history.length ≤ 10 := by
  constructor
  · unfold tryAcquire
    by_cases hc : cooldownActive s.cooldownEnd now = true
    · simpa [hc] using h
    · simp only [hc, Bool.false_eq_true, if_false]
      set s1 := if cooldownExpired s.cooldownEnd now then LedgerState.mk [] none else s with hs1
      have h1 : s1.history.length ≤ 10 := by
        rw [hs1]; split <;> simp [h]
      have hcl : (cleanOldRequests s1.history now).length ≤ 10 :=
        le_trans (List.length_filter_le _ _) h1
      by_cases hcap : 10 ≤ (cleanOldRequests s1.history now).length
      · simpa [hcap] using hcl
      · simp only [hcap, if_false]
        split <;> simp <;> omega
  · unfold countdownTick
    split_ifs with h1 h2
    · exact h
    · simp
    · exact le_trans (List.length_filter_le _ _) h

/-- Claim C10 (witness). -/
theorem claim10_witness :
    (tryAcquire (LedgerState.mk [] none) 0).2.history.length ≤ 10 ∧
    (countdownTick (LedgerState.mk [] none) 0).history.length ≤ 10 :=
  claim10_capacity_invariant (LedgerState.mk [] none) 0 (by decide)

/-- Claim C9 (confirmed).  Reading the two durable entries is total and
tolerant: an absent, falsy, unparseable (`JSON.parse` throws) or non-array
timestamp payload reads as the empty sequence, and an absent, falsy or
non-numeric cooldown payload reads as `none`, which every guard treats as
no active cooldown. -/
theorem claim9_storage_reads_tolerant (jparse : String → Option JsVal) (now : ℤ) :
    getRequestHistory jparse none = [] ∧
    (∀ s, jparse s = none → getRequestHistory jparse (some s) = []) ∧
    (∀ s, (∀ xs, jparse s ≠ some (JsVal.jarr xs)) → getRequestHistory jparse (some s) = []) ∧
    getCooldownEndTime none = none ∧
    (∀ s, parseIntJS s = none → getCooldownEndTime (some s) = none) ∧
    cooldownActive none now = false := by
  refine ⟨rfl, ?_, ?_, rfl, ?_, rfl⟩
  · intro s h
    unfold getRequestHistory
    by_cases hs : s = "" <;> simp [hs, h]
  · intro s h
    unfold getRequestHistory
    by_cases hs : s = ""
    · simp [hs]
    · simp only [hs, if_false]
      cases hj : jparse s with
      | none => rfl
      | some j =>
        cases j with
        | jarr xs => exact absurd hj (h xs)
        | jnull => rfl
        | jbool b => rfl
        | jnum q => rfl
        | jstr t => rfl
        | jobj => rfl
  · intro s h
    unfold getCooldownEndTime
    by_cases hs : s = "" <;> simp [hs, h]

/-- Claim C9 (witness). -/
theorem claim9_witness :
    getRequestHistory (fun _ => none) (some "not json") = [] ∧
    getCooldownEndTime (some "** corrupt **") = none := by
  have h := claim9_storage_reads_tolerant (fun _ => none) 0
  exact ⟨h.2.1 "not json" rfl, h.2.2.2.2.1 "** corrupt **" (by decide)⟩

/-- While inside a quoted span, every quote-free character — commas
included — is accumulated into the current field. -/
theorem csvLoop_no_quote_content (cs : List Char) : ∀ (cur rest : List Char),
    (∀ c ∈ cs, c ≠ '"') → rest ≠ [] →
    csvLoop (cs ++ rest) cur true = csvLoop rest (cur ++ cs) true := by
  induction cs with
  | nil => intro cur rest _ _; simp
  | cons c cs ih =>
    intro cur rest h hrest
    have hc : c ≠ '"' := h c (List.mem_cons_self c cs)
    obtain ⟨d, ds, hds⟩ : ∃ d ds, cs ++ rest = d :: ds := by
      cases hx : cs ++ rest with
      | nil => exact absurd (List.append_eq_nil.mp hx).2 hrest
      | cons d ds => exact ⟨d, ds, rfl⟩
    rw [List.cons_append, hds]
    simp only [csvLoop, if_neg hc, Bool.true_eq_false, and_false, if_false]
    rw [← hds, ih (cur ++ [c]) rest (fun x hx => h x (List.mem_cons_of_mem c hx)) hrest]
    simp

/-- An opening quote toggles into the quoted span without emitting. -/
theorem csvLoop_open_quote (rest cur : List Char) (h : rest ≠ []) :
    csvLoop ('"' :: rest) cur false = csvLoop rest cur true := by
  obtain ⟨d, ds, rfl⟩ : ∃ d ds, rest = d :: ds := by
    cases rest with
    | nil => exact absurd rfl h
    | cons d ds => exact ⟨d, ds, rfl⟩
  simp [csvLoop]

/-- A closing quote at the end of the line only ends the span; the
accumulated field is pushed. -/
theorem csvLoop_close_quote_end (cur : List Char) :
    csvLoop ['"'] cur true = [cur] := by
  simp [csvLoop]

/-- A doubled quote inside a quoted span emits one literal quote. -/
theorem csvLoop_escaped_quote (rest cur : List Char) :
    csvLoop ('"' :: '"' :: rest) cur true = csvLoop rest (cur ++ ['"']) true := by
  simp [csvLoop]

/-- A whole quoted field containing a comma comes out as a single field. -/
theorem splitCsv_quoted_comma (u v : String)
    (hu : ∀ c ∈ u.data, c ≠ '"') (hv : ∀ c ∈ v.data, c ≠ '"') :
    splitCsv ("\"" ++ u ++ "," ++ v ++ "\"") = [jsTrim (u ++ "," ++ v)] := by
  have hdata : ("\"" ++ u ++ "," ++ v ++ "\"").data =
      '"' :: ((u.data ++ ',' :: v.data) ++ ['"']) := by
    simp [String.data_append]
  unfold splitCsv
  rw [hdata, csvLoop_open_quote _ _ (by simp),
      csvLoop_no_quote_content (u.data ++ ',' :: v.data) [] ['"']
        (by intro c hcm
            rcases List.mem_append.mp hcm with hcu | hcv
            · exact hu c hcu
            · rcases List.mem_cons.mp hcv with hcc | hcv2
              · rw [hcc]; decide
              · exact hv c hcv2)
        (by simp),
      List.nil_append, csvLoop_close_quote_end]
  simp only [List.map_cons, List.map_nil]
  congr 1
  apply congrArg jsTrim
  apply String.ext
  simp [String.data_append]

/-- Claim C6 (confirmed).  A comma inside a quoted span is field content:
any quote-free `u`, `v` make `"u,v"` a single field; and the spec's
two-line Tokyo feed decodes to exactly one record with magnitude 5.2
(= 26/5) and place "Tokyo, JP". -/
theorem claim6_comma_inside_quotes (dp : String → Option ℚ) (rand : ℕ → String)
    (u v : String) (hu : ∀ c ∈ u.data, c ≠ '"') (hv : ∀ c ∈ v.data, c ≠ '"') :
    splitCsv ("\"" ++ u ++ "," ++ v ++ "\"") = [jsTrim (u ++ "," ++ v)] ∧
    (parseUSGSCsv dp rand tokyoCsv).length = 1 ∧
    (parseUSGSCsv dp rand tokyoCsv).head?.map Earthquake.magnitude = some ((26 : ℚ) / 5) ∧
    (parseUSGSCsv dp rand tokyoCsv).head?.map Earthquake.place = some "Tokyo, JP" := by
  refine ⟨splitCsv_quoted_comma u v hu hv, rfl, ?_, rfl⟩
  have h1 : (parseUSGSCsv dp rand tokyoCsv).head?.map Earthquake.magnitude =
      some ((toNum "5.2").getD 0) := rfl
  have h2 : ((toNum "5.2").getD 0 : ℚ) = 26 / 5 := by
    rw [show toNum "5.2" = some (Rat.divInt 52 10) from rfl]
    norm_num [Rat.divInt_eq_div]
  rw [h1, h2]

/-- Claim C6 (witness). -/
theorem claim6_witness :
    splitCsv ("\"" ++ "Tokyo" ++ "," ++ " JP" ++ "\"") = [jsTrim ("Tokyo" ++ "," ++ " JP")] ∧
    (parseUSGSCsv dpNone randA tokyoCsv).length = 1 ∧
    (parseUSGSCsv dpNone randA tokyoCsv).head?.map Earthquake.magnitude = some ((26 : ℚ) / 5) ∧
    (parseUSGSCsv dpNone randA tokyoCsv).head?.map Earthquake.place = some "Tokyo, JP" :=
  claim6_comma_inside_quotes dpNone randA "Tokyo" " JP" (by decide) (by decide)

/-- Claim C7 (confirmed).  A doubled quote inside a quoted span decodes to a
single literal quote: for any quote-free `u`, `v`, the field `"u""v"`
splits to the single field `u"v`. -/
theorem claim7_doubled_quote_unescapes (u v : String)
    (hu : ∀ c ∈ u.data, c ≠ '"') (hv : ∀ c ∈ v.data, c ≠ '"') :
    splitCsv ("\"" ++ u ++ "\"\"" ++ v ++ "\"") = [jsTrim (u ++ "\"" ++ v)] := by
  have hdata : ("\"" ++ u ++ "\"\"" ++ v ++ "\"").data =
      '"' :: (u.data ++ ('"' :: '"' :: (v.data ++ ['"']))) := by
    simp [String.data_append]
  unfold splitCsv
  rw [hdata, csvLoop_open_quote _ _ (by simp),
      csvLoop_no_quote_content u.data [] ('"' :: '"' :: (v.data ++ ['"'])) hu (by simp),
      List.nil_append, csvLoop_escaped_quote,
      csvLoop_no_quote_content v.data (u.data ++ ['"']) ['"'] hv (by simp),
      csvLoop_close_quote_end]
  simp only [List.map_cons, List.map_nil]
  have hmk : (String.mk (u.data ++ ['"'] ++ v.data)) = u ++ "\"" ++ v :=
    String.ext (by simp [String.data_append])
  rw [hmk]

/-- Claim C7 (witness): `"He said ""hi"` decodes its doubled quote to one
literal quote. -/
theorem claim7_witness :
    splitCsv ("\"" ++ "He said " ++ "\"\"" ++ "hi" ++ "\"") =
      [jsTrim ("He said " ++ "\"" ++ "hi")] :=
  claim7_doubled_quote_unescapes "He said " "hi" (by decide) (by decide)

/-- With at least a header and one data row, the decoder is exactly the
indexed map of the row builder over the data rows (the final filter keeps
everything). -/
theorem parseUSGSCsv_eq_mapIdx (dp : String → Option ℚ) (rand : ℕ → String)
    (text : String) (h : 2 ≤ (nonBlankLines text).length) :
    parseUSGSCsv dp rand text =
      ((nonBlankLines text).drop 1).mapIdx
        (fun n line => mkRecord dp rand
          ((splitCsv ((nonBlankLines text).headD "")).map jsTrim) n line) := by
  unfold parseUSGSCsv
  rw [if_neg (by omega)]
  rw [List.filter_eq_self.mpr (by intro e _; simp [numIsNaN])]

/-- Claim C8 (confirmed).  Decoding is deterministic and idempotent up to
generated identifiers: two runs over the same 2+-line text produce the
same number of records, field-wise identical except possibly the
identifier, and identifiers also agree on every row whose identifier cell
is present and non-empty (only absent/empty cells draw on the random
stream). -/
theorem claim8_decoding_deterministic (dp : String → Option ℚ) (r1 r2 : ℕ → String)
    (text : String) (h : 2 ≤ (nonBlankLines text).length) :
    (parseUSGSCsv dp r1 text).length = (parseUSGSCsv dp r2 text).length ∧
    ∀ (i : ℕ) (h1 : i < (parseUSGSCsv dp r1 text).length)
      (h2 : i < (parseUSGSCsv dp r2 text).length),
      sameExceptId ((parseUSGSCsv dp r1 text).get ⟨i, h1⟩)
        ((parseUSGSCsv dp r2 text).get ⟨i, h2⟩) ∧
      (∀ s, idCell text i = some s → s ≠ "" →
        ((parseUSGSCsv dp r1 text).get ⟨i, h1⟩).id =
        ((parseUSGSCsv dp r2 text).get ⟨i, h2⟩).id) := by
  have e1 := parseUSGSCsv_eq_mapIdx dp r1 text h
  have e2 := parseUSGSCsv_eq_mapIdx dp r2 text h
  refine ⟨by simp [e1, e2, List.length_mapIdx], ?_⟩
  intro i h1 h2
  have hi : i < ((nonBlankLines text).drop 1).length := by
    rw [e1] at h1
    simpa [List.length_mapIdx] using h1
  have g1 : (parseUSGSCsv dp r1 text).get ⟨i, h1⟩ =
      mkRecord dp r1 ((splitCsv ((nonBlankLines text).headD "")).map jsTrim) i
        (((nonBlankLines text).drop 1).get ⟨i, hi⟩) := by
    rw [List.get_of_eq e1 ⟨i, h1⟩]
    exact List.get_mapIdx _ _ i hi
  have g2 : (parseUSGSCsv dp r2 text).get ⟨i, h2⟩ =
      mkRecord dp r2 ((splitCsv ((nonBlankLines text).headD "")).map jsTrim) i
        (((nonBlankLines text).drop 1).get ⟨i, hi⟩) := by
    rw [List.get_of_eq e2 ⟨i, h2⟩]
    exact List.get_mapIdx _ _ i hi
  rw [g1, g2]
  constructor
  · exact ⟨rfl, rfl, rfl, rfl, rfl, rfl, rfl, rfl, rfl, rfl, rfl, rfl, rfl, rfl, rfl, rfl⟩
  · intro s hs hne
    have hcell : idCell text i =
        getCol (splitCsv (((nonBlankLines text).drop 1).get ⟨i, hi⟩))
          (idxOf ((splitCsv ((nonBlankLines text).headD "")).map jsTrim) "id") := by
      unfold idCell
      rw [List.get?_eq_get hi]
      rfl
    rw [hcell] at hs
    have d1 : (mkRecord dp r1 ((splitCsv ((nonBlankLines text).headD "")).map jsTrim) i
        (((nonBlankLines text).drop 1).get ⟨i, hi⟩)).id =
        jsOrStr (getCol (splitCsv (((nonBlankLines text).drop 1).get ⟨i, hi⟩))
          (idxOf ((splitCsv ((nonBlankLines text).headD "")).map jsTrim) "id")) (r1 i) := rfl
    have d2 : (mkRecord dp r2 ((splitCsv ((nonBlankLines text).headD "")).map jsTrim) i
        (((nonBlankLines text).drop 1).get ⟨i, hi⟩)).id =
        jsOrStr (getCol (splitCsv (((nonBlankLines text).drop 1).get ⟨i, hi⟩))
          (idxOf ((splitCsv ((nonBlankLines text).headD "")).map jsTrim) "id")) (r2 i) := rfl
    rw [d1, d2, hs]
    simp [jsOrStr, hne]

/-- Claim C8 (witness): two runs over the Tokyo feed with different random
streams agree on everything, including the identifier of its one row,
whose identifier cell is the non-empty "abc". -/
theorem claim8_witness :
    (parseUSGSCsv dpNone randA tokyoCsv).length =
      (parseUSGSCsv dpNone randB tokyoCsv).length ∧
    sameExceptId ((parseUSGSCsv dpNone randA tokyoCsv).get ⟨0, by decide⟩)
      ((parseUSGSCsv dpNone randB tokyoCsv).get ⟨0, by decide⟩) ∧
    ((parseUSGSCsv dpNone randA tokyoCsv).get ⟨0, by decide⟩).id =
      ((parseUSGSCsv dpNone randB tokyoCsv).get ⟨0, by decide⟩).id := by
  have h := claim8_decoding_deterministic dpNone randA randB tokyoCsv (by decide)
  refine ⟨h.1, (h.2 0 (by decide) (by decide)).1, ?_⟩
  exact (h.2 0 (by decide) (by decide)).2 "abc" (by decide) (by decide)
